import Mathlib

/-!
Verification of the `templateer2` template-rendering pipeline.

The Python sources (`src/templateer2/parsing.py`, `src/templateer2/templateer.py`)
are shallowly embedded below.  Text is modelled as `List Char`; Python `dict`s
whose iteration order matters are modelled as association lists with
last-wins insertion semantics.  The marker-regexp search performed by
`TemplateFile.from_file` is modelled by a backtracking matcher specialised to
the fixed pattern shape used by the source.
-/

namespace Templateer

/-- ASCII core of Python's whitespace set used by `str.strip()` and the
regexp class for whitespace.  (Python additionally treats some Unicode
code points as whitespace; every input considered here is ASCII.) -/
def pyIsSpace (c : Char) : Bool :=
  c = ' ' || c = '\t' || c = '\n' || c = '\r' || c = '\x0b' || c = '\x0c'

/-- Drop the longest prefix whose characters satisfy `p` (Python `lstrip`). -/
def stripLeftP (p : Char → Bool) : List Char → List Char
  | [] => []
  | c :: cs => if p c then stripLeftP p cs else c :: cs

/-- Python `str.strip()` restricted to a character predicate. -/
def stripBothP (p : Char → Bool) (l : List Char) : List Char :=
  ((stripLeftP p (stripLeftP p l).reverse)).reverse

/-- Python `str.strip()` (whitespace both ends). -/
def pyStrip (l : List Char) : List Char := stripBothP pyIsSpace l

/-- Python `str.strip(chars)`: strip all characters of the set from both ends. -/
def stripSet (cs : List Char) (l : List Char) : List Char :=
  stripBothP (fun c => cs.contains c) l

/-- Python `str.split(sep)` for a one-character separator: splits on every
occurrence, keeping empty pieces. -/
def splitOnChar (sep : Char) : List Char → List (List Char)
  | [] => [[]]
  | c :: cs =>
    if c = sep then [] :: splitOnChar sep cs
    else
      match splitOnChar sep cs with
      | [] => [[c]]
      | h :: t => (c :: h) :: t

/-- Python `str.split(sep, 1)` when `sep` is known to occur: the piece before
the first occurrence and the piece after it. -/
def splitFirst (sep : Char) : List Char → List Char × List Char
  | [] => ([], [])
  | c :: cs =>
    if c = sep then ([], cs)
    else
      let r := splitFirst sep cs
      (c :: r.1, r.2)

/-- Does `suf` occur as a suffix of `l` (Python `str.endswith`)? -/
def endsWithL (l suf : List Char) : Bool :=
  suf.reverse.isPrefixOf l.reverse

/-- One step of Python `str.replace(old, "")`, fuel-bounded: remove every
non-overlapping left-to-right occurrence of `old`. -/
def replaceAllAux (old : List Char) : Nat → List Char → List Char
  | 0, s => s
  | _ + 1, [] => []
  | fuel + 1, c :: cs =>
    if old.isPrefixOf (c :: cs) then replaceAllAux old fuel ((c :: cs).drop old.length)
    else c :: replaceAllAux old fuel cs

/-- Python `s.replace(old, "")` for nonempty `old` (the only use in the source
replaces a regexp match, which is never empty). -/
def replaceAll (old s : List Char) : List Char :=
  if old.isEmpty then s else replaceAllAux old s.length s

/-- `pathlib` `base / p`: an absolute right operand discards the base.
The file system itself is an oracle parameter, so only this shape matters. -/
def joinPath (base : Option (List Char)) (p : List Char) : List Char :=
  match base with
  | none => p
  | some b => if p.head? = some '/' then p else b ++ '/' :: p

/-- Last-wins association-list insert mirroring Python `d[k] = v`:
an existing key keeps its position and gets the new value, a new key is
appended. -/
def dictSet {α : Type} : List (List Char × α) → List Char → α → List (List Char × α)
  | [], k, v => [(k, v)]
  | (k0, v0) :: rest, k, v =>
    if k0 = k then (k0, v) :: rest else (k0, v0) :: dictSet rest k v

/-- Association-list lookup mirroring Python `d[k]` / `k in d`. -/
def dictGet {α : Type} : List (List Char × α) → List Char → Option α
  | [], _ => none
  | (k0, v0) :: rest, k => if k0 = k then some v0 else dictGet rest k

/-- Remove a key (Python `d.pop(k, default)` side effect). -/
def dictPop {α : Type} : List (List Char × α) → List Char → List (List Char × α)
  | [], _ => []
  | (k0, v0) :: rest, k => if k0 = k then rest else (k0, v0) :: dictPop rest k

/-! ## JSON values and `json.loads`

`config` values produced by `TemplateFile._parse_template_config` are either
plain strings or the result of `json.loads` on a bracket-delimited value, so
the Python value universe needed here is exactly the JSON one.  Numbers keep
their source lexeme: no claim computes with them. -/

inductive JVal where
  | null
  | bool (b : Bool)
  | num (lexeme : List Char)
  | str (s : List Char)
  | arr (items : List JVal)
  | obj (fields : List (List Char × JVal))

/-- JSON inter-token whitespace (`json` module: space, tab, newline, return). -/
def jWs (c : Char) : Bool :=
  c = ' ' || c = '\t' || c = '\n' || c = '\r'

def skipJWs (s : List Char) : List Char := stripLeftP jWs s

def hexDigitVal (c : Char) : Option Nat :=
  if '0' ≤ c ∧ c ≤ '9' then some (c.toNat - '0'.toNat)
  else if 'a' ≤ c ∧ c ≤ 'f' then some (c.toNat - 'a'.toNat + 10)
  else if 'A' ≤ c ∧ c ≤ 'F' then some (c.toNat - 'A'.toNat + 10)
  else none

def parseHex4 : List Char → Option (Nat × List Char)
  | a :: b :: c :: d :: rest =>
    match hexDigitVal a, hexDigitVal b, hexDigitVal c, hexDigitVal d with
    | some x, some y, some z, some w => some (((x * 16 + y) * 16 + z) * 16 + w, rest)
    | _, _, _, _ => none
  | _ => none

/-- Decode a JSON string body (the part after the opening quote), strict mode:
raw control characters below `0x20` are rejected, the standard escapes and
`\uXXXX` (with surrogate-pair combination) are decoded.  A decoded lone
surrogate falls outside Lean's scalar values and is mapped by `Char.ofNat`
to `0`; no input in this development exercises that corner. -/
def parseJStrBody : Nat → List Char → Option (List Char × List Char)
  | 0, _ => none
  | _ + 1, [] => none
  | fuel + 1, c :: cs =>
    if c = '"' then some ([], cs)
    else if c = '\\' then
      match cs with
      | [] => none
      | e :: cs2 =>
        let push (d : Char) (rest : List Char) : Option (List Char × List Char) :=
          (parseJStrBody fuel rest).map (fun p => (d :: p.1, p.2))
        if e = '"' then push '"' cs2
        else if e = '\\' then push '\\' cs2
        else if e = '/' then push '/' cs2
        else if e = 'b' then push '\x08' cs2
        else if e = 'f' then push '\x0c' cs2
        else if e = 'n' then push '\n' cs2
        else if e = 'r' then push '\r' cs2
        else if e = 't' then push '\t' cs2
        else if e = 'u' then
          match parseHex4 cs2 with
          | none => none
          | some (n, cs3) =>
            if 0xD800 ≤ n ∧ n < 0xDC00 then
              match cs3 with
              | '\\' :: 'u' :: cs4 =>
                match parseHex4 cs4 with
                | some (m, cs5) =>
                  if 0xDC00 ≤ m ∧ m < 0xE000 then
                    push (Char.ofNat (0x10000 + (n - 0xD800) * 0x400 + (m - 0xDC00))) cs5
                  else push (Char.ofNat n) cs3
                | none => push (Char.ofNat n) cs3
              | _ => push (Char.ofNat n) cs3
            else push (Char.ofNat n) cs3
        else none
    else if c.toNat < 0x20 then none
    else (parseJStrBody fuel cs).map (fun p => (c :: p.1, p.2))

def isDigitC (c : Char) : Bool := '0' ≤ c && c ≤ '9'

def spanDigits : List Char → List Char × List Char
  | [] => ([], [])
  | c :: cs =>
    if isDigitC c then
      let r := spanDigits cs
      (c :: r.1, r.2)
    else ([], c :: cs)

/-- The `json` module number regexp `-?(0|[1-9]\d*)(\.\d+)?([eE][-+]?\d+)?`,
returning the matched lexeme and the remainder. -/
def parseJNumber (s : List Char) : Option (List Char × List Char) :=
  let (sign, s1) : List Char × List Char :=
    match s with
    | '-' :: rest => (['-'], rest)
    | _ => ([], s)
  match s1 with
  | [] => none
  | c :: cs =>
    if c = '0' then
      let intPart := [c]
      let rest := cs
      let (frac, rest2) : List Char × List Char :=
        match rest with
        | '.' :: ds =>
          let (digits, r) := spanDigits ds
          if digits.isEmpty then ([], rest) else ('.' :: digits, r)
        | _ => ([], rest)
      let (expPart, rest3) : List Char × List Char :=
        match rest2 with
        | e :: tl =>
          if e = 'e' || e = 'E' then
            let (sgn, tl2) : List Char × List Char :=
              match tl with
              | '+' :: u => (['+'], u)
              | '-' :: u => (['-'], u)
              | _ => ([], tl)
            let (digits, r) := spanDigits tl2
            if digits.isEmpty then ([], rest2) else (e :: sgn ++ digits, r)
          else ([], rest2)
        | [] => ([], rest2)
      some (sign ++ intPart ++ frac ++ expPart, rest3)
    else if isDigitC c then
      let (digits, rest) := spanDigits cs
      let intPart := c :: digits
      let (frac, rest2) : List Char × List Char :=
        match rest with
        | '.' :: ds =>
          let (digits2, r) := spanDigits ds
          if digits2.isEmpty then ([], rest) else ('.' :: digits2, r)
        | _ => ([], rest)
      let (expPart, rest3) : List Char × List Char :=
        match rest2 with
        | e :: tl =>
          if e = 'e' || e = 'E' then
            let (sgn, tl2) : List Char × List Char :=
              match tl with
              | '+' :: u => (['+'], u)
              | '-' :: u => (['-'], u)
              | _ => ([], tl)
            let (digits2, r) := spanDigits tl2
            if digits2.isEmpty then ([], rest2) else (e :: sgn ++ digits2, r)
          else ([], rest2)
        | [] => ([], rest2)
      some (sign ++ intPart ++ frac ++ expPart, rest3)
    else none

mutual

/-- One JSON value at the head of `s` (no leading whitespace), as decoded by
the `json` module scanner: strings, objects, arrays, the three literals, the
number regexp, then the constants `NaN`, `Infinity`, `-Infinity`. -/
def parseJVal : Nat → List Char → Option (JVal × List Char)
  | 0, _ => none
  | fuel + 1, s =>
    match s with
    | '"' :: cs => (parseJStrBody (cs.length + 1) cs).map (fun p => (JVal.str p.1, p.2))
    | '{' :: cs => parseJObj fuel (skipJWs cs)
    | '[' :: cs => parseJArr fuel (skipJWs cs)
    | _ =>
      if ("null".data).isPrefixOf s then some (.null, s.drop 4)
      else if ("true".data).isPrefixOf s then some (.bool true, s.drop 4)
      else if ("false".data).isPrefixOf s then some (.bool false, s.drop 5)
      else
        match parseJNumber s with
        | some (lex, rest) => some (.num lex, rest)
        | none =>
          if ("NaN".data).isPrefixOf s then some (.num "NaN".data, s.drop 3)
          else if ("Infinity".data).isPrefixOf s then some (.num "Infinity".data, s.drop 8)
          else if ("-Infinity".data).isPrefixOf s then some (.num "-Infinity".data, s.drop 9)
          else none

/-- Array items, called just after `[` with whitespace skipped. -/
def parseJArr : Nat → List Char → Option (JVal × List Char)
  | 0, _ => none
  | fuel + 1, s =>
    match s with
    | ']' :: cs => some (.arr [], cs)
    | _ => parseJArrItems fuel s []

def parseJArrItems : Nat → List Char → List JVal → Option (JVal × List Char)
  | 0, _, _ => none
  | fuel + 1, s, acc =>
    match parseJVal fuel s with
    | none => none
    | some (v, r) =>
      match skipJWs r with
      | ',' :: r2 => parseJArrItems fuel (skipJWs r2) (acc ++ [v])
      | ']' :: r2 => some (.arr (acc ++ [v]), r2)
      | _ => none

/-- Object members, called just after `{` with whitespace skipped.  Duplicate
keys resolve dictionary-style (last wins). -/
def parseJObj : Nat → List Char → Option (JVal × List Char)
  | 0, _ => none
  | fuel + 1, s =>
    match s with
    | '}' :: cs => some (.obj [], cs)
    | _ => parseJObjItems fuel s []

def parseJObjItems : Nat → List Char → List (List Char × JVal) →
    Option (JVal × List Char)
  | 0, _, _ => none
  | fuel + 1, s, acc =>
    match s with
    | '"' :: cs =>
      match parseJStrBody (cs.length + 1) cs with
      | none => none
      | some (key, r1) =>
        match skipJWs r1 with
        | ':' :: r2 =>
          match parseJVal fuel (skipJWs r2) with
          | none => none
          | some (v, r3) =>
            match skipJWs r3 with
            | ',' :: r4 =>
              match skipJWs r4 with
              | '"' :: _ => parseJObjItems fuel (skipJWs r4) (dictSet acc key v)
              | _ => none
            | '}' :: r4 => some (.obj (dictSet acc key v), r4)
            | _ => none
        | _ => none
    | _ => none

end

/-- `json.loads`: the whole input must be a single JSON document, with
whitespace permitted around it.  `none` stands for `json.JSONDecodeError`. -/
def jsonLoads (s : List Char) : Option JVal :=
  match parseJVal (2 * s.length + 8) (skipJWs s) with
  | some (v, r) => if (skipJWs r).isEmpty then some v else none
  | none => none

/-! ## `TemplateFile._parse_template_config`

Line-by-line parsing of the configuration block
(`templateer.py` lines 393-434, identical to `parsing.py` lines 130-172). -/

/-- `value.startswith('"') and value.endswith('"')` (and the `'` variant):
remove exactly one surrounding quote of the same kind.  A single quote
character satisfies both tests and becomes the empty string, as in Python. -/
def stripPairedQuote (v : List Char) : List Char :=
  if v.head? = some '"' && v.getLast? = some '"' then (v.drop 1).dropLast
  else if v.head? = some '\'' && v.getLast? = some '\'' then (v.drop 1).dropLast
  else v

/-- `value.startswith("[") and value.endswith("]")`. -/
def bracketDelim (v : List Char) : Bool :=
  v.head? = some '[' && v.getLast? = some ']'

/-- The permissive fallback of the list branch:
`[item.strip().strip("\"'") for item in value[1:-1].split(",") if item.strip()]`.
Note the filter looks at the whitespace-stripped item, before quote
stripping. -/
def fallbackItems (v : List Char) : List (List Char) :=
  ((v.drop 1).dropLast |> splitOnChar ',').filterMap fun item =>
    if (pyStrip item).isEmpty then none
    else some (stripSet ['"', '\''] (pyStrip item))

/-- Interpretation of a (quote-stripped) config value: the bracket-delimited
branch tries `json.loads` and falls back to the permissive split; everything
else is the plain string. -/
def interpretValue (v : List Char) : JVal :=
  if bracketDelim v then
    match jsonLoads v with
    | some j => j
    | none => .arr ((fallbackItems v).map .str)
  else .str v

/-- One iteration of the `for line in config_text.split("\n")` loop. -/
def processConfigLine (cfg : List (List Char × JVal)) (rawLine : List Char) :
    List (List Char × JVal) :=
  let line := pyStrip (stripSet ['#'] (pyStrip rawLine))
  if line.isEmpty then cfg
  else if line.contains '=' then
    let kv := splitFirst '=' line
    dictSet cfg (pyStrip kv.1) (interpretValue (stripPairedQuote (pyStrip kv.2)))
  else cfg

/-- `TemplateFile._parse_template_config`. -/
def parse_template_config (txt : List Char) : List (List Char × JVal) :=
  (splitOnChar '\n' txt).foldl processConfigLine []

/-! ## The marker-pattern search

`TemplateFile.from_file` uses `re.search` with the DOTALL patterns
`#\s*///\s*script\s*\n(.*?)#\s*///` and
`#\s*///\s*template\s*\n(.*?)#\s*///`.
The matcher below implements Python's backtracking semantics for exactly this
pattern shape: leftmost start; the greedy `\s*` before `\n` prefers the
latest newline of the whitespace run; the lazy group prefers the shortest
body; the `\s*` runs before the literals `///` and the word are forced,
since `/` and the word's first letter are not whitespace. -/

/-- Length of the maximal whitespace run at the head. -/
def wsRunLen : List Char → Nat
  | [] => 0
  | c :: cs => if pyIsSpace c then wsRunLen cs + 1 else 0

/-- Match a literal at index `i`, returning the index after it. -/
def litAt (s lit : List Char) (i : Nat) : Option Nat :=
  if lit.isPrefixOf (s.drop i) then some (i + lit.length) else none

/-- The character at index `p`, if any. -/
def charAt (s : List Char) (p : Nat) : Option Char := (s.drop p).head?

/-- End positions for `\s*\n` starting at `j` whose whitespace run has length
`len`: one candidate per newline inside the run, greedy (latest) first. -/
def nlCandidates (s : List Char) (j len : Nat) : List Nat :=
  ((List.range len).filterMap fun off =>
    if charAt s (j + off) = some '\n' then some (j + off + 1) else none).reverse

/-- All ways to match `#\s*///\s*word\s*\n` starting at `i`, in backtracking
priority order; returns the index after the newline. -/
def headerEnds (s word : List Char) (i : Nat) : List Nat :=
  match litAt s ['#'] i with
  | none => []
  | some j1 =>
    match litAt s ['/', '/', '/'] (j1 + wsRunLen (s.drop j1)) with
    | none => []
    | some j3 =>
      match litAt s word (j3 + wsRunLen (s.drop j3)) with
      | none => []
      | some j5 => nlCandidates s j5 (wsRunLen (s.drop j5))

/-- Match the closing `#\s*///` at index `b`, returning the index after it. -/
def closeEnd (s : List Char) (b : Nat) : Option Nat :=
  match litAt s ['#'] b with
  | none => none
  | some j1 => litAt s ['/', '/', '/'] (j1 + wsRunLen (s.drop j1))

/-- Lazy group: the first (shortest-body) position `b ≥` start at which the
closing marker matches. -/
def firstCloseFrom (s : List Char) : Nat → Nat → Option (Nat × Nat)
  | 0, _ => none
  | fuel + 1, b =>
    match closeEnd s b with
    | some e => some (b, e)
    | none => if b < s.length then firstCloseFrom s fuel (b + 1) else none

/-- Try the header alternatives in priority order, running the lazy body for
each; returns `(groupStart, groupEnd, matchEnd)`. -/
def tryBodies (s : List Char) : List Nat → Option (Nat × Nat × Nat)
  | [] => none
  | h :: hs =>
    match firstCloseFrom s (s.length + 1) h with
    | some (b, e) => some (h, b, e)
    | none => tryBodies s hs

/-- Scan start positions left to right. -/
def searchFrom (s word : List Char) : Nat → Nat → Option (Nat × Nat × Nat × Nat)
  | 0, _ => none
  | fuel + 1, i =>
    match tryBodies s (headerEnds s word i) with
    | some (h, b, e) => some (i, h, b, e)
    | none => if i < s.length then searchFrom s word fuel (i + 1) else none

/-- `re.search(r"#\s*///\s*" + word + r"\s*\n(.*?)#\s*///", s, re.DOTALL)`,
returning `(start, groupStart, groupEnd, end)` of the leftmost match. -/
def reSearch (word s : List Char) : Option (Nat × Nat × Nat × Nat) :=
  searchFrom s word (s.length + 1) 0

/-- `s[i:j]`. -/
def sliceL (s : List Char) (i j : Nat) : List Char := (s.drop i).take (j - i)

/-! ## `TemplateConfig.from_raw_config` (`templateer.py` lines 82-153)

File reads go through an oracle `fs`; besides succeeding, a read can fail
because the file does not exist (`FileNotFoundError`) or for any other
reason (permission denied, directory, decode error, ...), which Python
surfaces as exception types the source does not catch. -/

inductive ReadResult where
  | found (content : List Char)
  | notFound
  | otherReadError

/-- The Python exceptions that can escape the embedded fragments. -/
inductive PyErr where
  | missingSection
  | validationError
  | typeError
  | attributeError
  | osError
deriving DecidableEq

structure McpServerConfigR where
  command : List Char
  args : List (List Char)
  env : Option (List (List Char × List Char))

/-- pydantic validation of `McpServerConfig(**server_config)`.
A non-mapping argument to `**` raises `TypeError` (which the source catches);
a mapping with a missing or ill-typed field raises `ValidationError` (which
it does not).  pydantic v2 performs no str/int coercions here. -/
def mkMcpServerConfig (v : JVal) : Except PyErr McpServerConfigR :=
  match v with
  | .obj fields =>
    let strListOf (w : JVal) : Option (List (List Char)) :=
      match w with
      | .arr items => items.mapM fun it =>
          match it with
          | .str s => some s
          | _ => none
      | _ => none
    let cmd : Option (List Char) :=
      match dictGet fields "command".data with
      | some (.str s) => some s
      | _ => none
    let args : Option (List (List Char)) :=
      match dictGet fields "args".data with
      | none => some []
      | some w => strListOf w
    let env : Option (Option (List (List Char × List Char))) :=
      match dictGet fields "env".data with
      | none => some none
      | some .null => some none
      | some (.obj ef) =>
        (ef.mapM fun (p : List Char × JVal) =>
          match p.2 with
          | JVal.str s => some (p.1, s)
          | _ => none).map some
      | some _ => none
    match cmd, args, env with
    | some c, some a, some e => .ok { command := c, args := a, env := e }
    | _, _, _ => .error .validationError
  | _ => .error .typeError

/-- Outcome of the `for server_name, server_config in servers_config.items()`
loop: entries accumulate until a `TypeError` stops it (caught, keeping the
entries built so far) or a `ValidationError` escapes. -/
inductive BuildOutcome where
  | done (svs : List (List Char × McpServerConfigR))
  | caughtTypeErr (svs : List (List Char × McpServerConfigR))
  | raisedValidation

def buildServers (acc : List (List Char × McpServerConfigR)) :
    List (List Char × JVal) → BuildOutcome
  | [] => .done acc
  | (n, v) :: rest =>
    match mkMcpServerConfig v with
    | .ok c => buildServers (dictSet acc n c) rest
    | .error .typeError => .caughtTypeErr acc
    | .error _ => .raisedValidation

/-- Decode server specs from JSON text (shared by the inline and the file
branch; both wrap it in `except (json.JSONDecodeError, TypeError)`).
The `Bool` records whether the degraded path printed its diagnostic.
A JSON document that is not an object reaches `.items()` and raises
`AttributeError`, which the source does not catch. -/
def decodeServers (content : List Char) :
    Except PyErr (List (List Char × McpServerConfigR) × Bool) :=
  match jsonLoads content with
  | none => .ok ([], true)
  | some (.obj fields) =>
    match buildServers [] fields with
    | .done svs => .ok (svs, false)
    | .caughtTypeErr svs => .ok (svs, true)
    | .raisedValidation => .error .validationError
  | some _ => .error .attributeError

/-- Is the `mcp-servers` value a file reference
(`value.endswith(".json") or value.startswith("file:")`)? -/
def isFileRef (s : List Char) : Bool :=
  endsWithL s ".json".data || ("file:".data).isPrefixOf s

/-- The path named by a file reference (dropping a `file:` scheme). -/
def fileRefPath (s : List Char) : List Char :=
  if ("file:".data).isPrefixOf s then s.drop 5 else s

/-- The `mcp-servers` handling block of `TemplateConfig.from_raw_config`
(`templateer.py` lines 93-131), given the popped value.  Returns the
`mcp_servers` mapping and whether a degradation diagnostic was printed;
errors are the exceptions that escape the block. -/
def parseMcpServers (v : JVal) (baseDir : Option (List Char))
    (fs : List Char → ReadResult) :
    Except PyErr (List (List Char × McpServerConfigR) × Bool) :=
  match v with
  | .str s =>
    if isFileRef s then
      match fs (joinPath baseDir (fileRefPath s)) with
      | .found content => decodeServers content
      | .notFound => .ok ([], true)
      | .otherReadError => .error .osError
    else decodeServers s
  | _ => .ok ([], true)

structure TemplateConfigR where
  output_file : Option (List Char)
  imports : List (List Char)
  reference_file : Option (List Char)
  mcp_servers : List (List Char × McpServerConfigR)
  mcp_tools : List (List Char)
  mcp_resources : List (List Char)
  extra_params : List (List Char × JVal)

/-- pydantic validation of a `List[str]` field popped with default `[]`. -/
def validateStrList (v : Option JVal) : Except PyErr (List (List Char)) :=
  match v with
  | none => .ok []
  | some (.arr items) =>
    match items.mapM (fun it => match it with | JVal.str s => some s | _ => none) with
    | some l => .ok l
    | none => .error .validationError
  | some _ => .error .validationError

/-- pydantic validation of the `Optional[str]` field `output_file`. -/
def validateOptStr (v : Option JVal) : Except PyErr (Option (List Char)) :=
  match v with
  | none => .ok none
  | some (.str s) => .ok (some s)
  | some _ => .error .validationError

/-- `reference-file` handling: a truthy value goes through `Path(...)`
(raising `TypeError` on a non-string) and is joined to the base directory;
a falsy one (absent or empty string) is left alone. -/
def validateReference (v : Option JVal) (baseDir : Option (List Char)) :
    Except PyErr (Option (List Char)) :=
  match v with
  | none => .ok none
  | some (.str s) =>
    if s.isEmpty then .ok (some s) else .ok (some (joinPath baseDir s))
  | some _ => .error .typeError

/-- `TemplateConfig.from_raw_config` (`templateer.py` lines 82-153). -/
def from_raw_config (cfg : List (List Char × JVal)) (baseDir : Option (List Char))
    (fs : List Char → ReadResult) : Except PyErr TemplateConfigR :=
  let mcpE : Except PyErr (List (List Char × McpServerConfigR) × Bool) :=
    match dictGet cfg "mcp-servers".data with
    | none => .ok ([], false)
    | some v => parseMcpServers v baseDir fs
  Except.bind mcpE fun mcp =>
  Except.bind (validateReference (dictGet cfg "reference-file".data) baseDir)
    fun reference =>
  Except.bind (validateOptStr (dictGet cfg "output-file".data)) fun output =>
  Except.bind (validateStrList (dictGet cfg "imports".data)) fun imports =>
  Except.bind (validateStrList (dictGet cfg "mcp-tools".data)) fun tools =>
  Except.bind (validateStrList (dictGet cfg "mcp-resources".data)) fun resources =>
  Except.ok
    { output_file := output
      imports := imports
      reference_file := reference
      mcp_servers := mcp.1
      mcp_tools := tools
      mcp_resources := resources
      extra_params :=
        dictPop (dictPop (dictPop (dictPop (dictPop (dictPop cfg
          "output-file".data) "imports".data) "reference-file".data)
          "mcp-servers".data) "mcp-tools".data) "mcp-resources".data }

/-! ## `TemplateFile.from_file` (`templateer.py` lines 351-391)

Modelled on the file's text: existence of the file itself is checked by
the caller-side `FileNotFoundError` guard, outside these claims. -/

structure TemplateFileR where
  python_code : List Char
  template_content : List Char
  config : TemplateConfigR

/-- The dependency-block (`uv` script section) removal: if the `script`
pattern matches, every occurrence of the matched text is removed and the
result is whitespace-stripped. -/
def preprocessContent (content : List Char) : List Char :=
  match reSearch "script".data content with
  | none => content
  | some (i, _, _, e) => pyStrip (replaceAll (sliceL content i e) content)

/-- The template-region post-processing:
`content[end:].strip().strip('"""').strip()`.  Note `str.strip('"""')`
strips every leading and trailing `"` character. -/
def extractTemplateRegion (rest : List Char) : List Char :=
  pyStrip (stripSet ['"'] (pyStrip rest))

/-- `TemplateFile.from_file`, from the raw document text. -/
def from_file_content (content : List Char) (baseDir : Option (List Char))
    (fs : List Char → ReadResult) : Except PyErr TemplateFileR :=
  let c := preprocessContent content
  match reSearch "template".data c with
  | none => .error .missingSection
  | some (i, h, b, e) =>
    (from_raw_config (parse_template_config (pyStrip (sliceL c h b))) baseDir fs).map
      fun config =>
        { python_code := pyStrip (sliceL c 0 i)
          template_content := extractTemplateRegion (c.drop e)
          config := config }

/-! ## Spec-side definitions

These two definitions transcribe the *spec's words* (not the source) and are
compared with the source-derived functions above; each is used only to settle
a refinement claim. -/

/-- Modelled from the spec sentence for the template region: "trimmed of
surrounding whitespace and one layer of enclosing triple-quote-style wrapping
if present", the body inside that layer preserved unchanged. -/
def specTrimTemplate (rest : List Char) : List Char :=
  let t := pyStrip rest
  if ("\"\"\"".data).isPrefixOf t ∧ endsWithL t "\"\"\"".data ∧ 6 ≤ t.length then
    (t.drop 3).take (t.length - 6)
  else t

/-- Modelled from the claim's words for a bracket-delimited config value:
strict JSON-array parse, else comma-split with whitespace and quote
stripping per item, dropping items that are empty after that stripping. -/
def claimedListValue (v : List Char) : JVal :=
  match jsonLoads v with
  | some j => j
  | none =>
    .arr ((((v.drop 1).dropLast |> splitOnChar ',').filterMap fun item =>
      let cleaned := stripSet ['"', '\''] (pyStrip item)
      if cleaned.isEmpty then none else some cleaned).map .str)

/-! ## `PydanticModuleLoader._extract_pydantic_classes`
(`parsing.py` lines 211-235)

A member of the executed namespace is either a class — carrying the facts the
extractor inspects — or some other object.  `inspect.getmembers` yields
members sorted by name; field-info objects are opaque. -/

structure PyClass where
  subclassOfBaseModel : Bool
  isBaseModel : Bool
  doc : Option String
  hasModelFields : Bool
  modelFields : List (String × Nat)
deriving DecidableEq

inductive Member where
  | pyCls (c : PyClass)
  | nonclass
deriving DecidableEq

structure PydanticClassInfo where
  cls : PyClass
  doc : String
  fields : List (String × Nat)
deriving DecidableEq

/-- The selection test of the extraction loop:
`inspect.isclass(obj) and issubclass(obj, PydanticBase) and obj != PydanticBase`. -/
def qualifies : Member → Bool
  | .pyCls c => c.subclassOfBaseModel && !c.isBaseModel
  | .nonclass => false

/-- The info record built for a selected class:
`inspect.getdoc(obj) or ""` and `obj.model_fields` when present. -/
def infoOf (c : PyClass) : PydanticClassInfo :=
  { cls := c
    doc := c.doc.getD ""
    fields := if c.hasModelFields then c.modelFields else [] }

/-- Insert into a name-keyed dict of extracted classes (`classes[name] = ...`). -/
def dictSetS {α : Type} : List (String × α) → String → α → List (String × α)
  | [], k, v => [(k, v)]
  | (k0, v0) :: rest, k, v =>
    if k0 = k then (k0, v) :: rest else (k0, v0) :: dictSetS rest k v

/-- Code-point lexicographic comparison, Python's ordering on `str`. -/
def lexLeCh : List Char → List Char → Bool
  | [], _ => true
  | _ :: _, [] => false
  | a :: as, b :: bs => if a = b then lexLeCh as bs else decide (a < b)

/-- `inspect.getmembers(module)`: the namespace sorted by member name. -/
def getmembers (ns : List (String × Member)) : List (String × Member) :=
  ns.insertionSort fun a b => lexLeCh a.1.data b.1.data = true

/-- The body of the extraction loop: a member that is a class, a subclass of
the pydantic base, and not the base itself is recorded under its name. -/
def extractStep (acc : List (String × PydanticClassInfo)) (p : String × Member) :
    List (String × PydanticClassInfo) :=
  match p.2 with
  | .pyCls c =>
    if c.subclassOfBaseModel && !c.isBaseModel then dictSetS acc p.1 (infoOf c)
    else acc
  | .nonclass => acc

/-- `PydanticModuleLoader._extract_pydantic_classes`. -/
def extract_pydantic_classes (ns : List (String × Member)) :
    List (String × PydanticClassInfo) :=
  (getmembers ns).foldl extractStep []

/-! ## The pipeline steps of `TemplateProcessor.async_process` relevant to
claims C5 and C8 (`templateer.py` lines 462-543). -/

inductive SchemaErr where
  | noSchemaFound
deriving DecidableEq

/-- `PydanticModuleLoader.load` followed by the
`if not module_info.has_classes(): raise ValueError(...)` guard: with an
empty class map the no-schema error is raised, otherwise the class map
flows on to rendering. -/
def load_and_check (ns : List (String × Member)) :
    Except SchemaErr (List (String × PydanticClassInfo)) :=
  let classes := extract_pydantic_classes ns
  if classes.isEmpty then .error .noSchemaFound else .ok classes

/-- The pipeline segment from module loading to the rendered text: rendering
(an arbitrary function of the class map) happens only on the success path. -/
def render_pipeline (ns : List (String × Member))
    (renderFn : List (String × PydanticClassInfo) → List Char) :
    Except SchemaErr (List Char) :=
  (load_and_check ns).map renderFn

/-- `output_filename = template_file.config.output_file or template_path.stem + ".md"`
(`templateer.py` lines 533-536): Python `or` falls through on `None` and on
the empty string. -/
def output_filename (cfg : TemplateConfigR) (stem : List Char) : List Char :=
  match cfg.output_file with
  | none => stem ++ ".md".data
  | some s => if s.isEmpty then stem ++ ".md".data else s

/-! ## `McpClientManager.call_tool` (`templateer.py` lines 203-230)

A live session is an oracle from tool name and argument object (opaque) to
either a result object or the text of the exception the underlying call
raised; the `try`/`except Exception` of the source converts the latter into
a placeholder payload, so the embedded operation is total. -/

inductive PyObj where
  | jsonVal (j : JVal)
  | rawObj (n : Nat)

structure McpSessionModel where
  toolResult : List Char → Nat → Except (List Char) PyObj

/-- `{"content": [{"type": "text", "text": msg}]}`. -/
def textContentPayload (msg : List Char) : PyObj :=
  .jsonVal (.obj [("content".data,
    .arr [.obj [("type".data, .str "text".data), ("text".data, .str msg)]])])

def notConnectedMsg (server : List Char) : List Char :=
  "[Tool execution failed: MCP server \x27".data ++ server ++
    "\x27 is not connected]".data

def toolErrorMsg (errText : List Char) : List Char :=
  "[Tool execution error: ".data ++ errText ++ "]".data

/-- `McpClientManager.call_tool`. -/
def call_tool (sessions : List (List Char × McpSessionModel))
    (server tool : List Char) (args : Nat) : PyObj :=
  match dictGet sessions server with
  | none => textContentPayload (notConnectedMsg server)
  | some sess =>
    match sess.toolResult tool args with
    | .ok r => r
    | .error e => textContentPayload (toolErrorMsg e)

/-! ## `PydanticModuleLoader._load_as_module` (`parsing.py` lines 186-209)

State-passing model of the interpreter state the function touches: the keys
of `sys.modules` and the set of existing temp-file paths.  `id(python_code)`
is an opaque integer; `exec_module` may succeed or raise. -/

structure InterpState where
  sysModules : List String
  tmpFiles : List String
deriving DecidableEq

inductive ExecOutcome where
  | execOk
  | execRaises
deriving DecidableEq

def insertKey (k : String) (l : List String) : List String :=
  if l.contains k then l else l ++ [k]

def module_name_of (codeId : Nat) : String :=
  "pydantic_module_" ++ Nat.repr codeId

def tmp_path_of (codeId : Nat) : String :=
  module_name_of codeId ++ ".py"

/-- `PydanticModuleLoader._load_as_module`: write the temp file, register the
module in `sys.modules`, execute it, and unlink the temp file in `finally`.
The returned `Bool` is `true` when the call returns (rather than raising).
When spec creation fails the `ImportError` is raised before the registry
assignment; in every other case the entry is written and never removed. -/
def load_as_module (st : InterpState) (codeId : Nat) (specOk : Bool)
    (outcome : ExecOutcome) : InterpState × Bool :=
  let name := module_name_of codeId
  let tmp := tmp_path_of codeId
  let st1 : InterpState := { st with tmpFiles := insertKey tmp st.tmpFiles }
  if !specOk then ({ st1 with tmpFiles := st1.tmpFiles.erase tmp }, false)
  else
    let st2 : InterpState := { st1 with sysModules := insertKey name st1.sysModules }
    match outcome with
    | .execRaises => ({ st2 with tmpFiles := st2.tmpFiles.erase tmp }, false)
    | .execOk => ({ st2 with tmpFiles := st2.tmpFiles.erase tmp }, true)

/-! ## Helper lemmas -/

theorem bind_ok_of {ε α β : Type} {x : Except ε α} {f : α → Except ε β} {b : β}
    (hx : Except.bind x f = Except.ok b) :
    ∃ a, x = Except.ok a ∧ f a = Except.ok b := by
  cases x with
  | error e => exact Except.noConfusion hx
  | ok a => exact ⟨a, rfl, hx⟩

theorem map_ok_of {ε α β : Type} {x : Except ε α} {f : α → β} {b : β}
    (hx : Except.map f x = Except.ok b) :
    ∃ a, x = Except.ok a ∧ f a = b := by
  cases x with
  | error e => exact Except.noConfusion hx
  | ok a =>
    refine ⟨a, rfl, ?_⟩
    have : Except.ok (ε := ε) (f a) = Except.ok b := hx
    exact Except.ok.inj this

theorem mem_insertKey_self (k : String) (l : List String) : k ∈ insertKey k l := by
  by_cases h : k ∈ l <;> simp [insertKey, h]

theorem nodup_insertKey {k : String} {l : List String} (h : l.Nodup) :
    (insertKey k l).Nodup := by
  by_cases hc : k ∈ l <;> simp [insertKey, hc, List.nodup_append, h]

theorem not_mem_erase_self {k : String} {l : List String} (h : l.Nodup) :
    k ∉ l.erase k := by
  intro hmem
  exact (List.Nodup.mem_erase_iff h).mp hmem |>.1 rfl

/-- A shared file-system oracle in which no file exists. -/
def fsNone : List Char → ReadResult := fun _ => ReadResult.notFound

/-! ## Claim C10 -/

/-- C10: a configuration line that is non-empty after stripping whitespace
and `#` characters but contains no `=` is silently ignored: the key-value
mapping is returned unchanged, with no error and no empty-valued key. -/
theorem config_line_without_equals_ignored
    (cfg : List (List Char × JVal)) (rawLine : List Char)
    (hne : (pyStrip (stripSet ['#'] (pyStrip rawLine))).isEmpty = false)
    (heq : '=' ∉ pyStrip (stripSet ['#'] (pyStrip rawLine))) :
    processConfigLine cfg rawLine = cfg := by
  unfold processConfigLine
  simp [hne, heq]

/-- C10 witness: the line `hello world` leaves the mapping untouched. -/
theorem config_line_without_equals_ignored_witness :
    processConfigLine [(['k'], JVal.str ['v'])] "hello world".data
      = [(['k'], JVal.str ['v'])] :=
  config_line_without_equals_ignored [(['k'], JVal.str ['v'])] "hello world".data
    (by decide) (by decide)

/-! ## Claim C3 -/

/-- C3: `McpClientManager.call_tool` never raises (it is total in this
embedding because the source wraps the live call in `except Exception`): for
a server with no live session it returns the structured "not connected"
placeholder, and when a live session's call errs it returns the placeholder
carrying the error text. -/
theorem call_tool_contract (sessions : List (List Char × McpSessionModel))
    (server tool : List Char) (args : Nat) :
    (dictGet sessions server = none →
      call_tool sessions server tool args = textContentPayload (notConnectedMsg server))
    ∧ (∀ sess errText, dictGet sessions server = some sess →
        sess.toolResult tool args = .error errText →
        call_tool sessions server tool args = textContentPayload (toolErrorMsg errText)) := by
  constructor
  · intro h
    simp [call_tool, h]
  · intro sess errText h1 h2
    simp [call_tool, h1, h2]

/-- A session whose tool call always raises, used to witness C3. -/
def erroringSession : McpSessionModel :=
  ⟨fun _ _ => .error "boom".data⟩

/-- C3 witness: an unconfigured server yields the "not connected"
placeholder, and an erroring live session yields the error placeholder. -/
theorem call_tool_contract_witness :
    call_tool [] "weather".data "get_temp".data 0
      = textContentPayload (notConnectedMsg "weather".data)
    ∧ call_tool [("weather".data, erroringSession)] "weather".data "get_temp".data 0
      = textContentPayload (toolErrorMsg "boom".data) :=
  ⟨(call_tool_contract [] "weather".data "get_temp".data 0).1 rfl,
   (call_tool_contract [("weather".data, erroringSession)] "weather".data
      "get_temp".data 0).2 erroringSession "boom".data rfl rfl⟩

/-! ## Claim C2 -/

/-- C2 counterexample: a successful extraction does *not* leave `sys.modules`
unchanged — `_load_as_module` assigns `sys.modules[module_name] = module` and
its `finally` block deletes only the temp file, so the entry keyed by the
derived module identity is still registered after the call returns. -/
theorem load_as_module_registry_counterexample :
    (load_as_module ⟨[], []⟩ 0 true .execOk).2 = true
    ∧ module_name_of 0 ∈ (load_as_module ⟨[], []⟩ 0 true .execOk).1.sysModules := by
  constructor
  · rfl
  · exact List.mem_singleton.mpr rfl

/-- C2 amended: whenever module-spec creation succeeds (the only path on
which code is executed), the entry keyed by the derived module identity is
registered in `sys.modules` and remains registered when the call completes,
whether execution succeeds or raises; the temporary file, by contrast, is
always removed. -/
theorem load_as_module_registers_module
    (st : InterpState) (codeId : Nat) (specOk : Bool) (outcome : ExecOutcome)
    (hspec : specOk = true) (hnd : st.tmpFiles.Nodup) :
    module_name_of codeId ∈ (load_as_module st codeId specOk outcome).1.sysModules
    ∧ tmp_path_of codeId ∉ (load_as_module st codeId specOk outcome).1.tmpFiles := by
  subst hspec
  unfold load_as_module
  cases outcome with
  | execOk =>
    exact ⟨mem_insertKey_self _ _, not_mem_erase_self (nodup_insertKey hnd)⟩
  | execRaises =>
    exact ⟨mem_insertKey_self _ _, not_mem_erase_self (nodup_insertKey hnd)⟩

/-- C2 amended witness: at a fresh interpreter state the registry entry for
code identity 7 persists and its temp file does not. -/
theorem load_as_module_registers_module_witness :
    module_name_of 7 ∈ (load_as_module ⟨[], []⟩ 7 true .execRaises).1.sysModules
    ∧ tmp_path_of 7 ∉ (load_as_module ⟨[], []⟩ 7 true .execRaises).1.tmpFiles :=
  load_as_module_registers_module ⟨[], []⟩ 7 true .execRaises rfl (by simp)

/-! ## Claim C6 -/

/-- A file-system oracle in which every read fails for a reason other than
non-existence (e.g. a permission error). -/
def fsUnreadable : List Char → ReadResult := fun _ => ReadResult.otherReadError

/-- C6 counterexample: a file reference to a file that cannot be read does
*not* always degrade to an empty tool-server mapping — the source catches
only `FileNotFoundError`, `json.JSONDecodeError` and `TypeError`, so a read
that fails for any other reason (permission denied, a directory, a decode
failure) escapes the `mcp-servers` block as an exception. -/
theorem mcp_servers_unreadable_counterexample :
    isFileRef "servers.json".data = true
    ∧ parseMcpServers (.str "servers.json".data) none fsUnreadable
        = .error .osError := by
  exact ⟨by decide, rfl⟩

/-- C6 amended: a malformed inline JSON value, a referenced file that does
not exist, and a referenced file whose contents are malformed JSON all
degrade to an empty tool-server mapping after emitting a diagnostic, without
raising; read failures other than non-existence propagate (see the
counterexample). -/
theorem mcp_servers_degrade
    (v : JVal) (baseDir : Option (List Char)) (fs : List Char → ReadResult) :
    (∀ s, v = .str s → isFileRef s = false → jsonLoads s = none →
      parseMcpServers v baseDir fs = .ok ([], true))
    ∧ (∀ s, v = .str s → isFileRef s = true →
        fs (joinPath baseDir (fileRefPath s)) = .notFound →
        parseMcpServers v baseDir fs = .ok ([], true))
    ∧ (∀ s content, v = .str s → isFileRef s = true →
        fs (joinPath baseDir (fileRefPath s)) = .found content →
        jsonLoads content = none →
        parseMcpServers v baseDir fs = .ok ([], true)) := by
  refine ⟨?_, ?_, ?_⟩
  · intro s hv hnotref hjson
    subst hv
    simp [parseMcpServers, hnotref, decodeServers, hjson]
  · intro s hv href hfs
    subst hv
    simp [parseMcpServers, href, hfs]
  · intro s content hv href hfs hjson
    subst hv
    simp [parseMcpServers, href, hfs, decodeServers, hjson]

/-- C6 amended witness: malformed inline JSON, a missing referenced file and
a referenced file with malformed JSON contents each yield the empty mapping
with a diagnostic. -/
theorem mcp_servers_degrade_witness :
    parseMcpServers (.str "\x7bnot json".data) none fsNone = .ok ([], true)
    ∧ parseMcpServers (.str "servers.json".data) none fsNone = .ok ([], true)
    ∧ parseMcpServers (.str "servers.json".data) none
        (fun _ => ReadResult.found "\x7boops".data) = .ok ([], true) :=
  ⟨(mcp_servers_degrade (.str "\x7bnot json".data) none fsNone).1
      "\x7bnot json".data rfl (by decide) rfl,
   (mcp_servers_degrade (.str "servers.json".data) none fsNone).2.1
      "servers.json".data rfl (by decide) rfl,
   (mcp_servers_degrade (.str "servers.json".data) none
        (fun _ => ReadResult.found "\x7boops".data)).2.2
      "servers.json".data "\x7boops".data rfl (by decide) rfl rfl⟩

/-! ## Claim C1 -/

/-- A document in which the configuration-block pattern does not match, yet
parsing succeeds: the dependency-block removal
(`content.replace(uv_match.group(0), "")`) splices `# /// temp` and
`late\n# ///` into a configuration marker that was not present in the
original text. -/
def spliceDoc : List Char := "# /// temp# /// script\n# ///late\n# ///".data

/-- C1 counterexample: the configuration-block pattern does not match
`spliceDoc`, yet `TemplateFile.from_file` parses it successfully instead of
failing with the missing-section error. -/
theorem from_file_splice_counterexample :
    reSearch "template".data spliceDoc = none
    ∧ (from_file_content spliceDoc none fsNone).isOk = true := by
  exact ⟨by decide, rfl⟩

/-- C1 amended: whenever the configuration-block pattern does not match the
content remaining after dependency-block removal (the text the parser
actually searches), parsing fails with the missing-section error — in
particular it never returns a document at all, empty-configured or not.  (On
the raw document text the claim fails, since dependency-block removal can
splice a marker together; see the counterexample.) -/
theorem from_file_missing_section
    (content : List Char) (baseDir : Option (List Char))
    (fs : List Char → ReadResult)
    (h : reSearch "template".data (preprocessContent content) = none) :
    from_file_content content baseDir fs = .error .missingSection := by
  unfold from_file_content
  simp only [h]

/-- C1 amended witness: a document with no marker at all fails with the
missing-section error. -/
theorem from_file_missing_section_witness :
    from_file_content "x = 1\nprint(x)".data none fsNone = .error .missingSection :=
  from_file_missing_section "x = 1\nprint(x)".data none fsNone (by decide)

/-! ## Claim C7 -/

/-- A bracket value whose only comma-piece consists of two quote characters:
`json.loads` rejects it (single quotes), and the fallback keeps the item —
it is non-empty before quote stripping — as an empty string. -/
def quoteOnlyItemValue : List Char := ['[', '\'', '\'', ']']

/-- C7 counterexample: on the bracket value holding a single-quoted empty
item, the fallback described by the claim (drop items empty after whitespace
*and* quote stripping) yields the empty list, but the source drops items
only when they are empty after whitespace stripping, so the parsed value
keeps one empty-string entry. -/
theorem interpret_value_counterexample :
    bracketDelim quoteOnlyItemValue = true
    ∧ jsonLoads quoteOnlyItemValue = none
    ∧ interpretValue quoteOnlyItemValue = .arr [.str []]
    ∧ claimedListValue quoteOnlyItemValue = .arr []
    ∧ interpretValue quoteOnlyItemValue ≠ claimedListValue quoteOnlyItemValue := by
  refine ⟨by decide, rfl, rfl, rfl, ?_⟩
  have h1 : interpretValue quoteOnlyItemValue = .arr [.str []] := rfl
  have h2 : claimedListValue quoteOnlyItemValue = .arr [] := rfl
  rw [h1, h2]
  simp

/-- C7 amended: a configuration line whose value (after quote stripping)
is bracket-delimited maps its key to the strict JSON-array parse when that
succeeds, and otherwise to the comma-split of the bracket interior with
whitespace-then-quote stripping per item, dropping exactly the items that
are empty after *whitespace* stripping (an item consisting only of quote
characters is kept as an empty string); the fallback never raises.  In
particular `imports = ["a.py", "b.py"]` maps `imports` to the ordered
two-element list. -/
theorem config_line_bracket_value
    (cfg : List (List Char × JVal)) (rawLine : List Char)
    (hne : (pyStrip (stripSet ['#'] (pyStrip rawLine))).isEmpty = false)
    (heq : '=' ∈ pyStrip (stripSet ['#'] (pyStrip rawLine)))
    (hbr : bracketDelim (stripPairedQuote (pyStrip
      (splitFirst '=' (pyStrip (stripSet ['#'] (pyStrip rawLine)))).2)) = true) :
    (processConfigLine cfg rawLine =
      dictSet cfg
        (pyStrip (splitFirst '=' (pyStrip (stripSet ['#'] (pyStrip rawLine)))).1)
        (match jsonLoads (stripPairedQuote (pyStrip
            (splitFirst '=' (pyStrip (stripSet ['#'] (pyStrip rawLine)))).2)) with
         | some j => j
         | none => .arr ((fallbackItems (stripPairedQuote (pyStrip
             (splitFirst '=' (pyStrip (stripSet ['#'] (pyStrip rawLine)))).2))).map .str)))
    ∧ processConfigLine [] "imports = [\"a.py\", \"b.py\"]".data
        = [("imports".data, .arr [.str "a.py".data, .str "b.py".data])] := by
  constructor
  · have hc : (pyStrip (stripSet ['#'] (pyStrip rawLine))).contains '=' = true :=
      List.elem_eq_true_of_mem heq
    unfold processConfigLine
    simp only [hne, Bool.false_eq_true, if_false, hc, if_true, interpretValue, hbr]
  · rfl

/-- C7 amended witness: a strict-JSON bracket value and a malformed bracket
value (an unbalanced quote, whose interior is split at its comma) both
follow the described interpretation without aborting. -/
theorem config_line_bracket_value_witness :
    processConfigLine [] "imports = [\"a.py\", \"b.py\"]".data
      = [("imports".data, .arr [.str "a.py".data, .str "b.py".data])]
    ∧ processConfigLine [] "bad = [\"a.py, b]".data
      = [("bad".data, .arr [.str "a.py".data, .str "b".data])] :=
  ⟨(config_line_bracket_value [] "imports = [\"a.py\", \"b.py\"]".data
      (by decide) (by decide) (by decide)).2,
   (config_line_bracket_value [] "bad = [\"a.py, b]".data
      (by decide) (by decide) (by decide)).1.trans (by rfl)⟩

/-! ## Claim C8 -/

/-- C8 counterexample: an `output-file` key that is present with value `""`
is not used as the output filename — Python's `or` treats the empty string
as falsy, so the stem-based default wins. -/
theorem output_filename_empty_counterexample :
    dictGet [("output-file".data, JVal.str [])] "output-file".data
        = some (JVal.str [])
    ∧ (from_raw_config [("output-file".data, JVal.str [])] none fsNone).map
        (fun c => output_filename c "doc".data) = .ok "doc.md".data
    ∧ "doc.md".data ≠ ([] : List Char) := by
  exact ⟨rfl, rfl, by decide⟩

/-- The `output-file` field of a successfully parsed raw configuration is
exactly the validated value of the raw `output-file` key. -/
theorem from_raw_config_output_file
    (cfg : List (List Char × JVal)) (baseDir : Option (List Char))
    (fs : List Char → ReadResult) (c : TemplateConfigR)
    (hok : from_raw_config cfg baseDir fs = .ok c) :
    validateOptStr (dictGet cfg "output-file".data) = .ok c.output_file := by
  unfold from_raw_config at hok
  obtain ⟨mcp, hmcp, hok⟩ := bind_ok_of hok
  obtain ⟨reference, href, hok⟩ := bind_ok_of hok
  obtain ⟨output, hout, hok⟩ := bind_ok_of hok
  obtain ⟨imports, himp, hok⟩ := bind_ok_of hok
  obtain ⟨tools, htl, hok⟩ := bind_ok_of hok
  obtain ⟨resources, hrs, hok⟩ := bind_ok_of hok
  have hc : c.output_file = output := by
    have := Except.ok.inj hok
    rw [← this]
  rw [hc]
  exact hout

/-- C8 amended: for every successfully parsed configuration, when the
`output-file` key is absent the output filename is the document stem with
`.md` appended; when it is present with a non-empty string value, that value
is used.  (A present-but-empty value falls back to the default; see the
counterexample.) -/
theorem output_filename_spec
    (cfg : List (List Char × JVal)) (baseDir : Option (List Char))
    (fs : List Char → ReadResult) (c : TemplateConfigR) (stem : List Char)
    (hok : from_raw_config cfg baseDir fs = .ok c) :
    (dictGet cfg "output-file".data = none →
      output_filename c stem = stem ++ ".md".data)
    ∧ (∀ s, dictGet cfg "output-file".data = some (.str s) → s.isEmpty = false →
        output_filename c stem = s) := by
  have hval := from_raw_config_output_file cfg baseDir fs c hok
  constructor
  · intro habs
    rw [habs] at hval
    have : c.output_file = none := (Except.ok.inj hval).symm
    simp [output_filename, this]
  · intro s hpres hne
    rw [hpres] at hval
    have : c.output_file = some s := (Except.ok.inj hval).symm
    simp [output_filename, this, hne]

/-- C8 amended witness: with no `output-file` key the filename defaults to
`doc.md`, and with `output-file = "x.md"` it is `x.md`. -/
theorem output_filename_spec_witness :
    output_filename ⟨none, [], none, [], [], [], []⟩ "doc".data = "doc.md".data
    ∧ output_filename ⟨some "x.md".data, [], none, [], [], [], []⟩ "doc".data
        = "x.md".data :=
  ⟨(output_filename_spec [] none fsNone ⟨none, [], none, [], [], [], []⟩
      "doc".data rfl).1 rfl,
   (output_filename_spec [("output-file".data, JVal.str "x.md".data)] none fsNone
      ⟨some "x.md".data, [], none, [], [], [], []⟩ "doc".data rfl).2
      "x.md".data rfl rfl⟩

/-! ## Claim C9 -/

/-- A document whose template region is a single-quoted word: no triple-quote
wrapping is present, yet the source still strips the quotes. -/
def singleQuoteDoc : List Char := "# /// template\n# ///\n\"A\"".data

/-- C9 counterexample: after the closing marker of `singleQuoteDoc` the text
is `"A"` (no enclosing triple-quote wrapping), which the claim says is
preserved unchanged after whitespace trimming; the source's
`.strip().strip('"""').strip()` instead removes the two quote characters. -/
theorem template_region_counterexample :
    reSearch "template".data singleQuoteDoc = some (0, 15, 15, 20)
    ∧ preprocessContent singleQuoteDoc = singleQuoteDoc
    ∧ (from_file_content singleQuoteDoc none fsNone).map
        (fun d => d.template_content) = .ok "A".data
    ∧ specTrimTemplate (singleQuoteDoc.drop 20) = "\"A\"".data
    ∧ "A".data ≠ "\"A\"".data := by
  exact ⟨by decide, rfl, rfl, rfl, by decide⟩

/-- C9 amended: for every document with a configuration block, the extracted
template region is the text after the block's closing marker (in the content
remaining after dependency-block removal), stripped of surrounding
whitespace, then of *all* leading and trailing double-quote characters —
not just one triple-quote layer — then of whitespace again. -/
theorem template_region_extraction
    (content : List Char) (baseDir : Option (List Char))
    (fs : List Char → ReadResult) (d : TemplateFileR) (i h b e : Nat)
    (hsearch : reSearch "template".data (preprocessContent content)
      = some (i, h, b, e))
    (hok : from_file_content content baseDir fs = .ok d) :
    d.template_content =
      pyStrip (stripSet ['"'] (pyStrip ((preprocessContent content).drop e))) := by
  unfold from_file_content at hok
  simp only [hsearch] at hok
  obtain ⟨cfg, _, hd⟩ := map_ok_of hok
  rw [← hd]
  rfl

/-- C9 amended witness: on `singleQuoteDoc` the extracted template region is
the quote-stripped `A`. -/
theorem template_region_extraction_witness :
    "A".data =
      pyStrip (stripSet ['"'] (pyStrip ((preprocessContent singleQuoteDoc).drop 20))) :=
  template_region_extraction singleQuoteDoc none fsNone
    ⟨[], "A".data, ⟨none, [], none, [], [], [], []⟩⟩ 0 15 15 20 (by decide) rfl

/-! ## Claims C4 and C5: lemmas about the extraction loop -/

/-- The entry contributed by one namespace member, if selected. -/
def selectMember (p : String × Member) : Option (String × PydanticClassInfo) :=
  match p.2 with
  | .pyCls c =>
    if c.subclassOfBaseModel && !c.isBaseModel then some (p.1, infoOf c) else none
  | .nonclass => none

theorem dictSetS_append {α : Type} (acc : List (String × α)) (k : String) (v : α)
    (h : ∀ q ∈ acc, q.1 ≠ k) : dictSetS acc k v = acc ++ [(k, v)] := by
  induction acc with
  | nil => rfl
  | cons q rest ih =>
    obtain ⟨q1, q2⟩ := q
    have hq : q1 ≠ k := h (q1, q2) (List.mem_cons_self _ _)
    simp only [dictSetS, hq, if_false, List.cons_append, List.cons.injEq, true_and]
    exact ih fun r hr => h r (List.mem_cons_of_mem _ hr)

theorem foldl_extractStep_eq (l : List (String × Member)) :
    ∀ acc : List (String × PydanticClassInfo),
    (l.map Prod.fst).Nodup →
    (∀ p ∈ l, ∀ q ∈ acc, q.1 ≠ p.1) →
    l.foldl extractStep acc = acc ++ l.filterMap selectMember := by
  induction l with
  | nil =>
    intro acc _ _
    simp
  | cons p rest ih =>
    intro acc hnd hdis
    obtain ⟨p1, p2⟩ := p
    have hnd2 : (p1 :: rest.map Prod.fst).Nodup := by simpa using hnd
    have hnotin : p1 ∉ rest.map Prod.fst := (List.nodup_cons.mp hnd2).1
    have hndr : (rest.map Prod.fst).Nodup := (List.nodup_cons.mp hnd2).2
    cases p2 with
    | nonclass =>
      simp only [List.foldl_cons, extractStep]
      rw [ih acc hndr fun r hr q hq => hdis r (List.mem_cons_of_mem _ hr) q hq]
      simp [selectMember]
    | pyCls c =>
      by_cases hq : (c.subclassOfBaseModel && !c.isBaseModel) = true
      · have hstep : extractStep acc (p1, Member.pyCls c)
            = dictSetS acc p1 (infoOf c) := by
          simp [extractStep, hq]
        have hacc : ∀ q ∈ acc, q.1 ≠ p1 :=
          fun q hqm => hdis (p1, .pyCls c) (List.mem_cons_self _ _) q hqm
        simp only [List.foldl_cons, hstep]
        rw [dictSetS_append acc p1 (infoOf c) hacc]
        rw [ih (acc ++ [(p1, infoOf c)]) hndr ?_]
        · simp [selectMember, hq]
        · intro r hr q hq2
          rcases List.mem_append.mp hq2 with hq3 | hq3
          · exact hdis r (List.mem_cons_of_mem _ hr) q hq3
          · have hqe : q = (p1, infoOf c) := by simpa using hq3
            subst hqe
            intro hcontra
            have hc2 : p1 = r.1 := hcontra
            apply hnotin
            rw [hc2]
            exact List.mem_map_of_mem Prod.fst hr
      · have hstep : extractStep acc (p1, Member.pyCls c) = acc := by
          simp [extractStep, hq]
        simp only [List.foldl_cons, hstep]
        rw [ih acc hndr fun r hr q hq2 => hdis r (List.mem_cons_of_mem _ hr) q hq2]
        simp [selectMember, hq]

theorem map_fst_filterMap_select (l : List (String × Member)) :
    (l.filterMap selectMember).map Prod.fst
      = (l.filter fun p => qualifies p.2).map Prod.fst := by
  induction l with
  | nil => rfl
  | cons p rest ih =>
    obtain ⟨p1, p2⟩ := p
    cases p2 with
    | nonclass => simpa [selectMember, qualifies] using ih
    | pyCls c =>
      by_cases hq : (c.subclassOfBaseModel && !c.isBaseModel) = true
      · simpa [selectMember, qualifies, hq] using ih
      · simpa [selectMember, qualifies, hq] using ih

theorem foldl_extractStep_of_none (l : List (String × Member)) :
    ∀ acc, (∀ p ∈ l, qualifies p.2 = false) → l.foldl extractStep acc = acc := by
  induction l with
  | nil =>
    intro acc _
    rfl
  | cons p rest ih =>
    intro acc hall
    obtain ⟨p1, p2⟩ := p
    have hp : qualifies p2 = false := hall (p1, p2) (List.mem_cons_self _ _)
    have hrest := fun r hr => hall r (List.mem_cons_of_mem _ hr)
    cases p2 with
    | nonclass => exact ih acc hrest
    | pyCls c =>
      have hq : (c.subclassOfBaseModel && !c.isBaseModel) = false := by
        simpa [qualifies] using hp
      have hstep : extractStep acc (p1, Member.pyCls c) = acc := by
        simp [extractStep, hq]
      simp only [List.foldl_cons, hstep]
      exact ih acc hrest

/-! ## Claim C4 -/

/-- C4: on a namespace with distinct member names (a Python module namespace
is a dict), the extracted schema map has exactly one entry per qualifying
class — the keys are exactly the names of the members that are classes,
subclass the pydantic base and are not the base itself; its length is the
number of qualifying members; and the base capability is never among the
extracted entries. -/
theorem extract_pydantic_classes_spec (ns : List (String × Member))
    (hnd : (ns.map Prod.fst).Nodup) :
    ((extract_pydantic_classes ns).map Prod.fst).Perm
        ((ns.filter fun p => qualifies p.2).map Prod.fst)
    ∧ (extract_pydantic_classes ns).length = ns.countP (fun p => qualifies p.2)
    ∧ (∀ p ∈ extract_pydantic_classes ns,
        p.2.cls.isBaseModel = false ∧ p.2.cls.subclassOfBaseModel = true) := by
  have hperm : (getmembers ns).Perm ns := List.perm_insertionSort _ ns
  have hnd' : ((getmembers ns).map Prod.fst).Nodup :=
    (List.Perm.nodup_iff (hperm.map Prod.fst)).mpr hnd
  have hfm : extract_pydantic_classes ns = (getmembers ns).filterMap selectMember := by
    unfold extract_pydantic_classes
    rw [foldl_extractStep_eq (getmembers ns) [] hnd' (by intro p _ q hq; cases hq)]
    simp
  refine ⟨?_, ?_, ?_⟩
  · rw [hfm, map_fst_filterMap_select]
    exact (hperm.filter _).map Prod.fst
  · rw [hfm]
    have hlen : ((getmembers ns).filterMap selectMember).length
        = ((getmembers ns).filter fun p => qualifies p.2).length := by
      rw [← List.length_map ((getmembers ns).filterMap selectMember) Prod.fst,
        map_fst_filterMap_select, List.length_map]
    rw [hlen, ← List.countP_eq_length_filter]
    exact hperm.countP_eq _
  · intro p hp
    rw [hfm] at hp
    obtain ⟨a, _, hsel⟩ := List.mem_filterMap.mp hp
    obtain ⟨a1, a2⟩ := a
    cases a2 with
    | nonclass => exact Option.noConfusion hsel
    | pyCls c =>
      by_cases hq : (c.subclassOfBaseModel && !c.isBaseModel) = true
      · have hpe : p = (a1, infoOf c) := by
          have := hsel
          simp only [selectMember, hq, if_true] at this
          exact (Option.some.inj this).symm
        subst hpe
        have hb := Bool.and_eq_true_iff.mp hq
        exact ⟨by simpa using hb.2, hb.1⟩
      · exfalso
        simp [selectMember, hq] at hsel

/-- Example pydantic-base class object (`issubclass(BaseModel, BaseModel)`
holds, and it is the base itself). -/
def basePC : PyClass := ⟨true, true, none, false, []⟩

/-- Example qualifying schema class. -/
def personPC : PyClass := ⟨true, false, some "A person.", true, [("name", 0), ("age", 1)]⟩

def nsExample : List (String × Member) :=
  [("Person", .pyCls personPC), ("BaseModel", .pyCls basePC), ("helper", .nonclass)]

/-- C4 witness: on a namespace with one qualifying class, the base class and
a non-class member, the extracted entry for `Person` is not the base and
subclasses the base. -/
theorem extract_pydantic_classes_spec_witness :
    (infoOf personPC).cls.isBaseModel = false
    ∧ (infoOf personPC).cls.subclassOfBaseModel = true :=
  (extract_pydantic_classes_spec nsExample (by decide)).2.2
    ("Person", infoOf personPC) (by decide)

/-! ## Claim C5 -/

/-- C5: when the executed namespace holds zero qualifying schema definitions
the pipeline fails with the no-schema error before rendering — the renderer
is never applied to an empty schema map. -/
theorem render_pipeline_no_schema (ns : List (String × Member))
    (renderFn : List (String × PydanticClassInfo) → List Char)
    (h : ns.countP (fun p => qualifies p.2) = 0) :
    render_pipeline ns renderFn = .error .noSchemaFound := by
  have hall : ∀ p ∈ ns, ¬ qualifies p.2 = true := List.countP_eq_zero.mp h
  have hall' : ∀ p ∈ getmembers ns, qualifies p.2 = false := by
    intro p hp
    have hmem : p ∈ ns := (List.perm_insertionSort _ ns).subset hp
    simpa using hall p hmem
  have hempty : extract_pydantic_classes ns = [] :=
    foldl_extractStep_of_none (getmembers ns) [] hall'
  unfold render_pipeline load_and_check
  rw [hempty]
  rfl

/-- C5 witness: a namespace holding only the base class and a non-class
member yields the no-schema error. -/
theorem render_pipeline_no_schema_witness :
    render_pipeline [("BaseModel", .pyCls basePC), ("helper", .nonclass)]
      (fun _ => []) = .error .noSchemaFound :=
  render_pipeline_no_schema [("BaseModel", .pyCls basePC), ("helper", .nonclass)]
    (fun _ => []) (by decide)

end Templateer
